import Mathlib

/-!
Shallow embedding of `src/library/src/main/cpp/vlc_bridge.cpp`.

The file models the per-stream session registry (`GlobalContext` /
`PlayerContext`), the libvlc video callbacks (`format_setup_cb`,
`display_cb`), the JNI thread-attachment helper (`getJNIEnv`) and the
three lifecycle entry points (`nativeStart`, `nativeReleaseMedia`,
`nativeReleaseVLC`).

External effects (libvlc calls, JNI global-reference management, frame
deliveries) are recorded as explicit event traces so that ordering and
resource-release properties can be stated.  Machine integers are modelled
as `Nat`/`Int` with explicit reduction modulo `2 ^ 32` exactly where the
C code computes in 32-bit `unsigned` arithmetic (`*pitches`, the resize
size) or converts `unsigned` to `jint` (`ctx->actualWidth = *width`).
-/

/-- 32-bit unsigned wrap-around, as used by C `unsigned` arithmetic. -/
def wrap32 (n : Nat) : Nat := n % 4294967296

/-- Conversion of a C `unsigned` value to `jint` (32-bit two's complement),
as performed by `ctx->actualWidth = *width;`. -/
def toJint (n : Nat) : Int :=
  if n % 4294967296 < 2147483648 then ((n % 4294967296 : Nat) : Int)
  else ((n % 4294967296 : Nat) : Int) - 4294967296

/-- The `PlayerContext` struct: one session.  `frameHub` is the JNI global
reference to the host sink (`none` = null), `onFrameMethod` the resolved
method id, `mp` the libvlc media-player handle, `bufSize` the current size
of the `std::vector<uint8_t> buffer`, and `actualWidth`/`actualHeight` the
stored (jint) dimensions. -/
structure PlayerContext where
  frameHub : Option Nat
  onFrameMethod : Option Nat
  mp : Option Nat
  bufSize : Nat
  actualWidth : Int
  actualHeight : Int
deriving DecidableEq, Repr

/-- The dimension-selection policy of `format_setup_cb`: if the stored
dimensions are both positive they are authoritative (`*width`/`*height`
are overwritten from them); otherwise the engine-proposed values are
stored (as jint) and kept.  Returns the updated context and the final
`*width`, `*height` (C `unsigned` values). -/
def negotiatedDims (c : PlayerContext) (width height : Nat) :
    PlayerContext × Nat × Nat :=
  if 0 < c.actualWidth ∧ 0 < c.actualHeight then
    (c, c.actualWidth.toNat, c.actualHeight.toNat)
  else
    ({ c with actualWidth := toJint width, actualHeight := toJint height },
     width, height)

/-- The buffer size `format_setup_cb` asks `buffer.resize` for:
`size = pitches * lines` with `pitches = (*width) * 2`, `lines = *height`,
both computed in 32-bit `unsigned` arithmetic. -/
def negotiatedSize (c : PlayerContext) (width height : Nat) : Nat :=
  wrap32 (wrap32 ((negotiatedDims c width height).2.1 * 2) *
    (negotiatedDims c width height).2.2)

/-- Result of one `format_setup_cb` invocation: the returned status
(`1` success / `0` failure), the updated context, and the out-parameters
`*width`, `*height`, `*pitches`, `*lines`. -/
structure FormatResult where
  status : Nat
  ctx : PlayerContext
  width : Nat
  height : Nat
  pitches : Nat
  lines : Nat
deriving DecidableEq, Repr

/-- `format_setup_cb`: applies the dimension policy, computes
`*pitches = (*width) * 2`, `*lines = *height`, and resizes the buffer to
`pitches * lines` bytes.  `allocOk` is the allocation oracle: when
`buffer.resize(size)` throws, the function returns `0` and (by
`std::vector`'s strong exception guarantee for `bad_alloc`) the buffer is
unchanged; otherwise it returns `1`. -/
def format_setup_cb (c : PlayerContext) (width height : Nat)
    (allocOk : Nat → Bool) : FormatResult :=
  let d := negotiatedDims c width height
  let pitches := wrap32 (d.2.1 * 2)
  let lines := d.2.2
  let size := wrap32 (pitches * lines)
  if allocOk size then
    { status := 1, ctx := { d.1 with bufSize := size },
      width := d.2.1, height := d.2.2, pitches := pitches, lines := lines }
  else
    { status := 0, ctx := d.1,
      width := d.2.1, height := d.2.2, pitches := pitches, lines := lines }

/-- External effects performed by the lifecycle paths, in order. -/
inductive Event where
  | playerStop (mp : Nat)
  | playerRelease (mp : Nat)
  | deleteGlobalRef (ref : Nat)
  | newGlobalRef (ref : Nat)
  | freeContext (c : PlayerContext)
  | mediaNew
  | playerNew (mp : Nat)
  | mediaRelease
  | playerPlay (mp : Nat)
  | engineRelease
deriving DecidableEq, Repr

/-- `destroyPlayerContext`: stops and releases the media player (when
non-null), deletes the global reference to the sink (when non-null), then
deletes the context object itself. -/
def destroyPlayerContext (c : PlayerContext) : List Event :=
  (match c.mp with
   | some m => [Event.playerStop m, Event.playerRelease m]
   | none => []) ++
  (match c.frameHub with
   | some r => [Event.deleteGlobalRef r]
   | none => []) ++
  [Event.freeContext c]

/-- The `GlobalContext` struct: the libvlc instance handle (`none` = null)
and the `players` map, modelled as an association list with unique keys. -/
structure GlobalContext where
  vlc : Option Nat
  players : List (String × PlayerContext)
deriving DecidableEq, Repr

/-- `players.find(url)`, as an option. -/
def findPlayer (ps : List (String × PlayerContext)) (url : String) :
    Option PlayerContext :=
  match ps with
  | [] => none
  | p :: rest => if p.1 = url then some p.2 else findPlayer rest url

/-- `players.erase(url)`. -/
def erasePlayer (ps : List (String × PlayerContext)) (url : String) :
    List (String × PlayerContext) :=
  match ps with
  | [] => []
  | p :: rest =>
    if p.1 = url then erasePlayer rest url else p :: erasePlayer rest url

/-- `players[url] = c` (the key is absent at the point of insertion in
`nativeStart`; erasing first keeps keys unique in every state). -/
def insertPlayer (ps : List (String × PlayerContext)) (url : String)
    (c : PlayerContext) : List (String × PlayerContext) :=
  (url, c) :: erasePlayer ps url

/-- Number of map entries whose key is `url`. -/
def countKey (ps : List (String × PlayerContext)) (url : String) : Nat :=
  match ps with
  | [] => 0
  | p :: rest =>
    (if p.1 = url then 1 else 0) + countKey rest url

/-- `nativeStart`: checks the handle, destroys and erases any existing
session for `url`, constructs a fresh `PlayerContext` (taking a global
reference on the hub and resolving the callback method id), creates the
media (`mediaOk` is whether `libvlc_media_new_location` returns non-null),
creates the player, releases the media, and starts playback (`playOk` is
whether `libvlc_media_player_play` returns `0`).  Returns the `jboolean`
result, the updated registry and the event trace. -/
def nativeStart (g : GlobalContext) (url : String) (hub : Nat)
    (width height : Int) (mediaOk playOk : Bool) (methodId : Option Nat)
    (newMp : Nat) : Bool × GlobalContext × List Event :=
  if g.vlc = none then (false, g, [])
  else
    let g1 : GlobalContext :=
      match findPlayer g.players url with
      | some _ => { g with players := erasePlayer g.players url }
      | none => g
    let ev0 : List Event :=
      match findPlayer g.players url with
      | some old => destroyPlayerContext old
      | none => []
    let ctx : PlayerContext :=
      { frameHub := some hub, onFrameMethod := methodId, mp := none,
        bufSize := 0, actualWidth := width, actualHeight := height }
    if mediaOk = false then
      (false, g1,
        ev0 ++ [Event.newGlobalRef hub, Event.mediaNew, Event.freeContext ctx])
    else
      let ctx2 : PlayerContext := { ctx with mp := some newMp }
      let ev1 : List Event :=
        ev0 ++ [Event.newGlobalRef hub, Event.mediaNew, Event.playerNew newMp,
          Event.mediaRelease, Event.playerPlay newMp]
      if playOk = false then
        (false, g1, ev1 ++ destroyPlayerContext ctx2)
      else
        (true, { g1 with players := insertPlayer g1.players url ctx2 }, ev1)

/-- `nativeReleaseMedia`: checks the handle, looks the session up, and
when present destroys it and erases it from the map, returning `true`;
otherwise returns `false` with nothing changed. -/
def nativeReleaseMedia (g : GlobalContext) (url : String) :
    Bool × GlobalContext × List Event :=
  if g.vlc = none then (false, g, [])
  else
    match findPlayer g.players url with
    | some c =>
      (true, { g with players := erasePlayer g.players url },
        destroyPlayerContext c)
    | none => (false, g, [])

/-- `nativeReleaseVLC`: destroys every session in the map, clears the map,
releases the libvlc instance (when non-null), and frees the global
context; the returned state is the freed (invalid) handle. -/
def nativeReleaseVLC (g : GlobalContext) : GlobalContext × List Event :=
  ({ vlc := none, players := [] },
    (g.players.map (fun p => destroyPlayerContext p.2)).flatten ++
      (match g.vlc with
       | some _ => [Event.engineRelease]
       | none => []))

/-- Status of `g_vm->GetEnv` on the current thread. -/
inductive EnvStatus where
  | attached
  | detachedThread
  | error
deriving DecidableEq, Repr

/-- The JNI environment as seen by one `display_cb` invocation:
whether the calling thread is attached, whether `AttachCurrentThread`
would succeed, and whether `NewDirectByteBuffer` returns non-null. -/
structure JniWorld where
  envStatus : EnvStatus
  attachOk : Bool
  directBufferOk : Bool
deriving DecidableEq, Repr

/-- `getJNIEnv`: returns `some needsDetach` when an env was obtained
(`needsDetach` is set to `true` exactly when this call performed the
attach), `none` when no env could be obtained. -/
def getJNIEnv (w : JniWorld) : Option Bool :=
  match w.envStatus with
  | EnvStatus.attached => some false
  | EnvStatus.detachedThread => if w.attachOk then some true else none
  | EnvStatus.error => none

/-- Effects of one `display_cb` invocation, in order. -/
inductive DEvent where
  | attach
  | newDirectBuffer
  | deliver (size : Nat) (width height : Int)
  | deleteLocalRef
  | detach
deriving DecidableEq, Repr

/-- `display_cb`: returns immediately when the sink reference is null;
otherwise obtains an env (returning with no effect when that fails),
creates the direct byte buffer and calls the sink method when the method
id is resolved and the buffer view succeeds, and finally detaches the
thread when this call attached it. -/
def display_cb (c : PlayerContext) (w : JniWorld) : List DEvent :=
  if c.frameHub = none then []
  else
    match getJNIEnv w with
    | none => []
    | some needsDetach =>
      (if needsDetach then [DEvent.attach] else []) ++
      (match c.onFrameMethod with
       | none => []
       | some _ =>
         DEvent.newDirectBuffer ::
           (if w.directBufferOk then
             [DEvent.deliver c.bufSize c.actualWidth c.actualHeight,
               DEvent.deleteLocalRef]
           else [])) ++
      (if needsDetach then [DEvent.detach] else [])

/-- The sink invocations (`CallVoidMethod`) contained in a display trace. -/
def deliveries (l : List DEvent) : List DEvent :=
  l.filter (fun e =>
    match e with
    | DEvent.deliver _ _ _ => true
    | _ => false)

/-- `precedes l a b`: event `a` occurs at some position of `l` strictly
before some occurrence of event `b`. -/
def precedes (l : List Event) (a b : Event) : Prop :=
  ∃ l1 l2, l = l1 ++ l2 ∧ a ∈ l1 ∧ b ∈ l2

/-! ### Helper lemmas -/

theorem precedes_of_append {l1 l2 : List Event} {a b : Event}
    (ha : a ∈ l1) (hb : b ∈ l2) : precedes (l1 ++ l2) a b :=
  ⟨l1, l2, rfl, ha, hb⟩

theorem precedes_append_right {l r : List Event} {a b : Event}
    (h : precedes l a b) : precedes (l ++ r) a b := by
  obtain ⟨x, y, hxy, hax, hby⟩ := h
  exact ⟨x, y ++ r, by rw [hxy, List.append_assoc],
    hax, List.mem_append_left r hby⟩

theorem precedes_append_left {l r : List Event} {a b : Event}
    (h : precedes l a b) : precedes (r ++ l) a b := by
  obtain ⟨x, y, hxy, hax, hby⟩ := h
  exact ⟨r ++ x, y, by rw [hxy, List.append_assoc], List.mem_append_right r hax, hby⟩

theorem playerStop_mem_destroy {c : PlayerContext} {m : Nat}
    (h : c.mp = some m) : Event.playerStop m ∈ destroyPlayerContext c := by
  simp [destroyPlayerContext, h]

theorem freeContext_mem_destroy (c : PlayerContext) :
    Event.freeContext c ∈ destroyPlayerContext c := by
  simp [destroyPlayerContext]

theorem precedes_destroy_stop_free {c : PlayerContext} {m : Nat}
    (h : c.mp = some m) :
    precedes (destroyPlayerContext c) (Event.playerStop m)
      (Event.freeContext c) := by
  refine ⟨[Event.playerStop m, Event.playerRelease m],
    (match c.frameHub with
     | some r => [Event.deleteGlobalRef r]
     | none => []) ++ [Event.freeContext c], ?_, ?_, ?_⟩
  · simp [destroyPlayerContext, h]
  · simp
  · simp

theorem findPlayer_erasePlayer (ps : List (String × PlayerContext))
    (url : String) : findPlayer (erasePlayer ps url) url = none := by
  induction ps with
  | nil => rfl
  | cons p rest ih =>
    by_cases h : p.1 = url <;> simp [erasePlayer, findPlayer, h, ih]

theorem countKey_erasePlayer (ps : List (String × PlayerContext))
    (url : String) : countKey (erasePlayer ps url) url = 0 := by
  induction ps with
  | nil => rfl
  | cons p rest ih =>
    by_cases h : p.1 = url <;> simp [erasePlayer, countKey, h, ih]

theorem countKey_insertPlayer (ps : List (String × PlayerContext))
    (url : String) (c : PlayerContext) :
    countKey (insertPlayer ps url c) url = 1 := by
  simp [insertPlayer, countKey, countKey_erasePlayer]

theorem wrap32_eq_of_lt {n : Nat} (h : n < 4294967296) : wrap32 n = n :=
  Nat.mod_eq_of_lt h

theorem toJint_eq_of_lt {n : Nat} (h : n < 2147483648) : toJint n = (n : Int) := by
  have h32 : n < 4294967296 := lt_trans h (by norm_num)
  simp [toJint, Nat.mod_eq_of_lt h32, h]

/-- C7: when the allocation oracle rejects the negotiated size (that is,
`buffer.resize` throws), `format_setup_cb` returns the failure code `0`. -/
theorem format_setup_alloc_failure (c : PlayerContext) (width height : Nat)
    (allocOk : Nat → Bool)
    (h : allocOk (negotiatedSize c width height) = false) :
    (format_setup_cb c width height allocOk).status = 0 := by
  have hsz : negotiatedSize c width height =
      wrap32 (wrap32 ((negotiatedDims c width height).2.1 * 2) *
        (negotiatedDims c width height).2.2) := rfl
  simp only [format_setup_cb]
  rw [← hsz, h]
  simp

/-- Witness for C7 at a concrete session and an always-failing allocator. -/
theorem format_setup_alloc_failure_witness :
    ((fun _ => false) : Nat → Bool)
        (negotiatedSize ⟨some 1, some 2, none, 0, 0, 0⟩ 320 240) = false ∧
      (format_setup_cb ⟨some 1, some 2, none, 0, 0, 0⟩ 320 240
        (fun _ => false)).status = 0 :=
  ⟨rfl, format_setup_alloc_failure ⟨some 1, some 2, none, 0, 0, 0⟩ 320 240
    (fun _ => false) rfl⟩

/-- C1 (amended): the dimension policy of `format_setup_cb`, plus the
buffer-size guarantee on success, for dimensions that do not overflow the
32-bit unsigned size computation. -/
theorem format_setup_negotiation (c : PlayerContext) (width height : Nat)
    (allocOk : Nat → Bool)
    (hw : width < 2147483648) (hh : height < 2147483648)
    (hsz : (negotiatedDims c width height).2.1 * 2 *
      (negotiatedDims c width height).2.2 < 4294967296) :
    ((0 < c.actualWidth ∧ 0 < c.actualHeight) →
       (format_setup_cb c width height allocOk).width = c.actualWidth.toNat ∧
       (format_setup_cb c width height allocOk).height = c.actualHeight.toNat ∧
       (format_setup_cb c width height allocOk).ctx.actualWidth = c.actualWidth ∧
       (format_setup_cb c width height allocOk).ctx.actualHeight = c.actualHeight) ∧
    (¬(0 < c.actualWidth ∧ 0 < c.actualHeight) →
       (format_setup_cb c width height allocOk).width = width ∧
       (format_setup_cb c width height allocOk).height = height ∧
       (format_setup_cb c width height allocOk).ctx.actualWidth = (width : Int) ∧
       (format_setup_cb c width height allocOk).ctx.actualHeight = (height : Int)) ∧
    ((format_setup_cb c width height allocOk).status = 1 →
       (format_setup_cb c width height allocOk).width *
         (format_setup_cb c width height allocOk).height * 2 ≤
       (format_setup_cb c width height allocOk).ctx.bufSize) := by
  by_cases hc : 0 < c.actualWidth ∧ 0 < c.actualHeight
  · have hd : negotiatedDims c width height =
        (c, c.actualWidth.toNat, c.actualHeight.toNat) := by
      simp [negotiatedDims, hc]
    rw [hd] at hsz
    simp only at hsz
    have hp : c.actualWidth.toNat * 2 ≤
        c.actualWidth.toNat * 2 * c.actualHeight.toNat :=
      Nat.le_mul_of_pos_right _ (by omega)
    have h2 : wrap32 (c.actualWidth.toNat * 2) = c.actualWidth.toNat * 2 :=
      wrap32_eq_of_lt (lt_of_le_of_lt hp hsz)
    have h3 : wrap32 (c.actualWidth.toNat * 2 * c.actualHeight.toNat) =
        c.actualWidth.toNat * 2 * c.actualHeight.toNat :=
      wrap32_eq_of_lt hsz
    cases hA : allocOk (c.actualWidth.toNat * 2 * c.actualHeight.toNat) with
    | false =>
      have hr : format_setup_cb c width height allocOk =
          { status := 0, ctx := c, width := c.actualWidth.toNat,
            height := c.actualHeight.toNat,
            pitches := c.actualWidth.toNat * 2,
            lines := c.actualHeight.toNat } := by
        simp [format_setup_cb, hd, h2, h3, hA]
      rw [hr]
      exact ⟨fun _ => ⟨rfl, rfl, rfl, rfl⟩, fun hnc => absurd hc hnc,
        fun hst => by simp at hst⟩
    | true =>
      have hr : format_setup_cb c width height allocOk =
          { status := 1,
            ctx := { c with
              bufSize := c.actualWidth.toNat * 2 * c.actualHeight.toNat },
            width := c.actualWidth.toNat, height := c.actualHeight.toNat,
            pitches := c.actualWidth.toNat * 2,
            lines := c.actualHeight.toNat } := by
        simp [format_setup_cb, hd, h2, h3, hA]
      rw [hr]
      exact ⟨fun _ => ⟨rfl, rfl, rfl, rfl⟩, fun hnc => absurd hc hnc,
        fun _ => le_of_eq (by ring)⟩
  · have hd : negotiatedDims c width height =
        ({ c with actualWidth := toJint width, actualHeight := toJint height },
          width, height) := by
      simp [negotiatedDims, hc]
    rw [hd] at hsz
    simp only at hsz
    have h2 : wrap32 (width * 2) = width * 2 :=
      wrap32_eq_of_lt (by omega)
    have h3 : wrap32 (width * 2 * height) = width * 2 * height :=
      wrap32_eq_of_lt hsz
    cases hA : allocOk (width * 2 * height) with
    | false =>
      have hr : format_setup_cb c width height allocOk =
          { status := 0,
            ctx := { c with actualWidth := toJint width, actualHeight := toJint height },
            width := width, height := height,
            pitches := width * 2, lines := height } := by
        simp [format_setup_cb, hd, h2, h3, hA]
      rw [hr]
      exact ⟨fun hcc => absurd hcc hc,
        fun _ => ⟨rfl, rfl, toJint_eq_of_lt hw, toJint_eq_of_lt hh⟩,
        fun hst => by simp at hst⟩
    | true =>
      have hr : format_setup_cb c width height allocOk =
          { status := 1,
            ctx := { c with actualWidth := toJint width, actualHeight := toJint height, bufSize := width * 2 * height },
            width := width, height := height,
            pitches := width * 2, lines := height } := by
        simp [format_setup_cb, hd, h2, h3, hA]
      rw [hr]
      exact ⟨fun hcc => absurd hcc hc,
        fun _ => ⟨rfl, rfl, toJint_eq_of_lt hw, toJint_eq_of_lt hh⟩,
        fun _ => le_of_eq (by ring)⟩

/-- Witness for the amended C1: a fresh session (no caller-forced
dimensions) adopting the engine-proposed 320 by 240 and allocating a
buffer of at least `320 * 240 * 2` bytes. -/
theorem format_setup_negotiation_witness :
    (format_setup_cb ⟨none, none, none, 0, 0, 0⟩ 320 240 (fun _ => true)).width
        = 320 ∧
      (format_setup_cb ⟨none, none, none, 0, 0, 0⟩ 320 240
          (fun _ => true)).height = 240 ∧
      (format_setup_cb ⟨none, none, none, 0, 0, 0⟩ 320 240
          (fun _ => true)).ctx.actualWidth = 320 ∧
      (format_setup_cb ⟨none, none, none, 0, 0, 0⟩ 320 240
          (fun _ => true)).ctx.actualHeight = 240 ∧
      320 * 240 * 2 ≤
        (format_setup_cb ⟨none, none, none, 0, 0, 0⟩ 320 240
          (fun _ => true)).ctx.bufSize := by
  have h := format_setup_negotiation ⟨none, none, none, 0, 0, 0⟩ 320 240
    (fun _ => true) (by decide) (by decide) (by decide)
  refine ⟨(h.2.1 (by decide)).1, (h.2.1 (by decide)).2.1,
    (h.2.1 (by decide)).2.2.1, (h.2.1 (by decide)).2.2.2, ?_⟩
  have hb := h.2.2 (by decide)
  rw [(h.2.1 (by decide)).1, (h.2.1 (by decide)).2.1] at hb
  exact hb

/-- Counterexample to C1 as stated: with no caller-forced dimensions and
an engine proposal of `2147483648` by `1`, the 32-bit computation of
`pitches = width * 2` wraps to `0`, the resize to `0` bytes succeeds,
negotiation reports success, yet the buffer is smaller than
`finalWidth * finalHeight * 2` and the stored width is negative rather
than the adopted proposal. -/
theorem format_setup_overflow_counterexample :
    (format_setup_cb ⟨some 1, some 1, some 1, 0, 0, 0⟩ 2147483648 1
        (fun _ => true)).status = 1 ∧
      (format_setup_cb ⟨some 1, some 1, some 1, 0, 0, 0⟩ 2147483648 1
          (fun _ => true)).width = 2147483648 ∧
      (format_setup_cb ⟨some 1, some 1, some 1, 0, 0, 0⟩ 2147483648 1
          (fun _ => true)).height = 1 ∧
      (format_setup_cb ⟨some 1, some 1, some 1, 0, 0, 0⟩ 2147483648 1
          (fun _ => true)).ctx.bufSize = 0 ∧
      (format_setup_cb ⟨some 1, some 1, some 1, 0, 0, 0⟩ 2147483648 1
          (fun _ => true)).ctx.bufSize <
        (format_setup_cb ⟨some 1, some 1, some 1, 0, 0, 0⟩ 2147483648 1
            (fun _ => true)).width *
          (format_setup_cb ⟨some 1, some 1, some 1, 0, 0, 0⟩ 2147483648 1
              (fun _ => true)).height * 2 ∧
      (format_setup_cb ⟨some 1, some 1, some 1, 0, 0, 0⟩ 2147483648 1
          (fun _ => true)).ctx.actualWidth < 0 := by
  decide

/-- C8 (amended): `display_cb` performs no delivery at all when the sink
reference is null, and performs exactly one delivery carrying the current
buffer and the stored dimensions when the sink is installed, the
environment is reachable, the callback method id is resolved and the
direct-buffer view succeeds. -/
theorem display_delivery (c : PlayerContext) (w : JniWorld) :
    (c.frameHub = none → display_cb c w = []) ∧
    (c.frameHub ≠ none → c.onFrameMethod ≠ none → getJNIEnv w ≠ none →
      w.directBufferOk = true →
      deliveries (display_cb c w) =
        [DEvent.deliver c.bufSize c.actualWidth c.actualHeight]) := by
  constructor
  · intro h
    simp [display_cb, h]
  · intro h1 h2 h3 h4
    rcases hm : c.onFrameMethod with _ | mid
    · exact absurd hm h2
    rcases hE : getJNIEnv w with _ | nd
    · exact absurd hE h3
    cases nd <;> simp [display_cb, h1, hE, hm, h4, deliveries, List.filter]

/-- Witness for the amended C8: a session with an installed sink, resolved
method and available direct buffer on an already-attached thread delivers
exactly once. -/
theorem display_delivery_witness :
    deliveries (display_cb ⟨some 1, some 2, some 3, 100, 320, 240⟩
        ⟨EnvStatus.attached, false, true⟩) = [DEvent.deliver 100 320 240] :=
  (display_delivery ⟨some 1, some 2, some 3, 100, 320, 240⟩
    ⟨EnvStatus.attached, false, true⟩).2 (by decide) (by decide) (by decide) rfl

/-- Counterexample to C8 as stated: with the sink installed and the host
environment reachable but `NewDirectByteBuffer` returning null, no
delivery at all is performed, not exactly one. -/
theorem display_view_failure_counterexample :
    (⟨some 1, some 2, some 3, 100, 320, 240⟩ : PlayerContext).frameHub ≠ none ∧
      getJNIEnv ⟨EnvStatus.attached, false, false⟩ ≠ none ∧
      deliveries (display_cb ⟨some 1, some 2, some 3, 100, 320, 240⟩
        ⟨EnvStatus.attached, false, false⟩) = [] := by
  decide

/-- C10: the delivery path attaches an unattached thread (marking itself
responsible), drops the delivery with no effect when the environment is
unreachable, brackets every exit path with detach whenever it attached,
and performs neither attach nor detach when the thread was already
attached. -/
theorem display_attach_detach (c : PlayerContext) (w : JniWorld) :
    (w.envStatus = EnvStatus.detachedThread → w.attachOk = true →
      getJNIEnv w = some true) ∧
    (getJNIEnv w = none → display_cb c w = []) ∧
    (c.frameHub ≠ none → getJNIEnv w = some true →
      ∃ mid, display_cb c w = DEvent.attach :: mid ++ [DEvent.detach]) ∧
    (getJNIEnv w = some false →
      DEvent.attach ∉ display_cb c w ∧ DEvent.detach ∉ display_cb c w) := by
  refine ⟨?_, ?_, ?_, ?_⟩
  · intro h1 h2
    simp [getJNIEnv, h1, h2]
  · intro h
    by_cases hf : c.frameHub = none
    · simp [display_cb, hf]
    · simp [display_cb, hf, h]
  · intro hf hE
    rcases hm : c.onFrameMethod with _ | mid0 <;> cases hdb : w.directBufferOk <;>
      simp [display_cb, hf, hE, hm, hdb] <;>
      first
        | exact ⟨[], rfl⟩
        | exact ⟨[DEvent.newDirectBuffer], rfl⟩
        | exact ⟨[DEvent.newDirectBuffer,
            DEvent.deliver c.bufSize c.actualWidth c.actualHeight,
            DEvent.deleteLocalRef], rfl⟩
  · intro hE
    by_cases hf : c.frameHub = none
    · simp [display_cb, hf]
    · rcases hm : c.onFrameMethod with _ | mid0 <;> cases hdb : w.directBufferOk <;>
        simp [display_cb, hf, hE, hm, hdb]

/-- Witness for C10: on a detached thread whose attach succeeds, the trace
attaches first and detaches last. -/
theorem display_attach_detach_witness :
    getJNIEnv ⟨EnvStatus.detachedThread, true, true⟩ = some true ∧
      ∃ mid, display_cb ⟨some 1, some 2, some 3, 100, 320, 240⟩
          ⟨EnvStatus.detachedThread, true, true⟩ =
        DEvent.attach :: mid ++ [DEvent.detach] :=
  ⟨(display_attach_detach ⟨some 1, some 2, some 3, 100, 320, 240⟩
      ⟨EnvStatus.detachedThread, true, true⟩).1 rfl rfl,
    (display_attach_detach ⟨some 1, some 2, some 3, 100, 320, 240⟩
      ⟨EnvStatus.detachedThread, true, true⟩).2.2.1 (by decide)
      ((display_attach_detach ⟨some 1, some 2, some 3, 100, 320, 240⟩
        ⟨EnvStatus.detachedThread, true, true⟩).1 rfl rfl)⟩

theorem precedes_flatten_of_mem {ps : List (String × PlayerContext)}
    {url : String} {c : PlayerContext} {a b : Event}
    (hmem : (url, c) ∈ ps) (h : precedes (destroyPlayerContext c) a b) :
    precedes ((ps.map (fun p => destroyPlayerContext p.2)).flatten) a b := by
  induction ps with
  | nil => cases hmem
  | cons p rest ih =>
    rcases List.mem_cons.1 hmem with heq | hmem2
    · rw [← heq]
      simp only [List.map_cons, List.flatten_cons]
      exact precedes_append_right h
    · simp only [List.map_cons, List.flatten_cons]
      exact precedes_append_left (ih hmem2)

theorem nativeStart_trace_destroy_prefix {g : GlobalContext} {url : String}
    {hub : Nat} {width height : Int} {mediaOk playOk : Bool}
    {methodId : Option Nat} {newMp : Nat} {old : PlayerContext}
    (hv : g.vlc ≠ none) (hfind : findPlayer g.players url = some old) :
    ∃ rest, (nativeStart g url hub width height mediaOk playOk methodId
      newMp).2.2 = destroyPlayerContext old ++ rest := by
  cases mediaOk <;> cases playOk <;>
    simp [nativeStart, hv, hfind]

/-- C5: `nativeReleaseMedia` on a present stream destroys it, removes it
from the map and returns `true` (and a second release then returns
`false`); on an absent stream it returns `false` with the registry left
unchanged and no effect performed. -/
theorem release_semantics (g : GlobalContext) (url : String)
    (hv : g.vlc ≠ none) :
    (∀ c, findPlayer g.players url = some c →
      (nativeReleaseMedia g url).1 = true ∧
      (nativeReleaseMedia g url).2.1.players = erasePlayer g.players url ∧
      findPlayer (nativeReleaseMedia g url).2.1.players url = none ∧
      (nativeReleaseMedia g url).2.2 = destroyPlayerContext c ∧
      (nativeReleaseMedia (nativeReleaseMedia g url).2.1 url).1 = false) ∧
    (findPlayer g.players url = none →
      (nativeReleaseMedia g url).1 = false ∧
      (nativeReleaseMedia g url).2.1 = g ∧
      (nativeReleaseMedia g url).2.2 = []) := by
  constructor
  · intro c hc
    have hr : nativeReleaseMedia g url =
        (true, { g with players := erasePlayer g.players url },
          destroyPlayerContext c) := by
      simp [nativeReleaseMedia, hv, hc]
    rw [hr]
    refine ⟨rfl, rfl, findPlayer_erasePlayer _ _, rfl, ?_⟩
    simp [nativeReleaseMedia, hv, findPlayer_erasePlayer]
  · intro hnone
    simp [nativeReleaseMedia, hv, hnone]

/-- Witness for C5: releasing a present stream succeeds and releasing on
an empty registry fails. -/
theorem release_semantics_witness :
    (nativeReleaseMedia ⟨some 1, [("u", ⟨some 2, some 3, some 4, 0, 0, 0⟩)]⟩
        "u").1 = true ∧
      (nativeReleaseMedia ⟨some 1, []⟩ "u").1 = false := by
  have h1 := release_semantics
    ⟨some 1, [("u", ⟨some 2, some 3, some 4, 0, 0, 0⟩)]⟩ "u" (by decide)
  have h2 := release_semantics ⟨some 1, []⟩ "u" (by decide)
  exact ⟨(h1.1 ⟨some 2, some 3, some 4, 0, 0, 0⟩ (by decide)).1, (h2.2 rfl).1⟩

/-- C6: `nativeReleaseVLC` on a valid handle destroys every session, leaves
the map empty, releases the engine after every session's stop and
destruction, and leaves the handle invalid. -/
theorem releaseAll_semantics (g : GlobalContext) (v : Nat)
    (hv : g.vlc = some v) :
    (nativeReleaseVLC g).1.players = [] ∧
    (nativeReleaseVLC g).1.vlc = none ∧
    Event.engineRelease ∈ (nativeReleaseVLC g).2 ∧
    (∀ url c m, (url, c) ∈ g.players → c.mp = some m →
      precedes (nativeReleaseVLC g).2 (Event.playerStop m)
        Event.engineRelease ∧
      precedes (nativeReleaseVLC g).2 (Event.freeContext c)
        Event.engineRelease) := by
  have heq : (nativeReleaseVLC g).2 =
      (g.players.map (fun p => destroyPlayerContext p.2)).flatten ++
        [Event.engineRelease] := by
    simp [nativeReleaseVLC, hv]
  refine ⟨rfl, rfl, ?_, ?_⟩
  · rw [heq]
    simp
  · intro url c m hmem hmp
    rw [heq]
    have hstop : Event.playerStop m ∈
        (g.players.map (fun p => destroyPlayerContext p.2)).flatten :=
      List.mem_flatten.2 ⟨destroyPlayerContext c,
        List.mem_map.2 ⟨(url, c), hmem, rfl⟩, playerStop_mem_destroy hmp⟩
    have hfree : Event.freeContext c ∈
        (g.players.map (fun p => destroyPlayerContext p.2)).flatten :=
      List.mem_flatten.2 ⟨destroyPlayerContext c,
        List.mem_map.2 ⟨(url, c), hmem, rfl⟩, freeContext_mem_destroy c⟩
    exact ⟨precedes_of_append hstop (by simp),
      precedes_of_append hfree (by simp)⟩

/-- Witness for C6 at a one-session registry. -/
theorem releaseAll_semantics_witness :
    (nativeReleaseVLC ⟨some 1, [("u", ⟨some 2, some 3, some 4, 0, 0, 0⟩)]⟩).1.players = [] ∧
      (nativeReleaseVLC ⟨some 1, [("u", ⟨some 2, some 3, some 4, 0, 0, 0⟩)]⟩).1.vlc = none ∧
      precedes (nativeReleaseVLC ⟨some 1, [("u", ⟨some 2, some 3, some 4, 0, 0, 0⟩)]⟩).2
        (Event.playerStop 4) Event.engineRelease := by
  have h := releaseAll_semantics
    ⟨some 1, [("u", ⟨some 2, some 3, some 4, 0, 0, 0⟩)]⟩ 1 rfl
  exact ⟨h.1, h.2.1,
    (h.2.2.2 "u" ⟨some 2, some 3, some 4, 0, 0, 0⟩ 4 (by decide) rfl).1⟩

/-- C9: in `destroyPlayerContext` the player is stopped before the context
(buffer and sink reference) is destroyed, and every session-destruction
path — single release, replacement during start, and release-all — emits
that stop strictly before that destruction. -/
theorem stop_before_destroy (c : PlayerContext) (m : Nat) (g : GlobalContext)
    (url : String) (hub : Nat) (width height : Int) (mediaOk playOk : Bool)
    (methodId : Option Nat) (newMp : Nat) (hmp : c.mp = some m) :
    precedes (destroyPlayerContext c) (Event.playerStop m)
      (Event.freeContext c) ∧
    (g.vlc ≠ none → findPlayer g.players url = some c →
      precedes (nativeReleaseMedia g url).2.2 (Event.playerStop m)
        (Event.freeContext c) ∧
      precedes (nativeStart g url hub width height mediaOk playOk methodId
          newMp).2.2 (Event.playerStop m) (Event.freeContext c)) ∧
    ((url, c) ∈ g.players →
      precedes (nativeReleaseVLC g).2 (Event.playerStop m)
        (Event.freeContext c)) := by
  refine ⟨precedes_destroy_stop_free hmp, ?_, ?_⟩
  · intro hv hfind
    constructor
    · have hr : (nativeReleaseMedia g url).2.2 = destroyPlayerContext c := by
        simp [nativeReleaseMedia, hv, hfind]
      rw [hr]
      exact precedes_destroy_stop_free hmp
    · obtain ⟨rest, hrest⟩ := nativeStart_trace_destroy_prefix hv hfind
      rw [hrest]
      exact precedes_append_right (precedes_destroy_stop_free hmp)
  · intro hmem
    have : (nativeReleaseVLC g).2 =
        (g.players.map (fun p => destroyPlayerContext p.2)).flatten ++
          (match g.vlc with
           | some _ => [Event.engineRelease]
           | none => []) := rfl
    rw [this]
    exact precedes_append_right
      (precedes_flatten_of_mem hmem (precedes_destroy_stop_free hmp))

/-- Witness for C9 on a concrete single-session registry. -/
theorem stop_before_destroy_witness :
    precedes (nativeReleaseMedia ⟨some 1, [("u", ⟨some 2, some 3, some 4, 0, 0, 0⟩)]⟩ "u").2.2
      (Event.playerStop 4) (Event.freeContext ⟨some 2, some 3, some 4, 0, 0, 0⟩) ∧
    precedes (nativeReleaseVLC ⟨some 1, [("u", ⟨some 2, some 3, some 4, 0, 0, 0⟩)]⟩).2
      (Event.playerStop 4) (Event.freeContext ⟨some 2, some 3, some 4, 0, 0, 0⟩) := by
  have h := stop_before_destroy ⟨some 2, some 3, some 4, 0, 0, 0⟩ 4
    ⟨some 1, [("u", ⟨some 2, some 3, some 4, 0, 0, 0⟩)]⟩ "u" 9 0 0 true true
    none 5 rfl
  exact ⟨(h.2.1 (by decide) (by decide)).1, h.2.2 (by decide)⟩

/-- C2: when `nativeStart` finds an existing session for the stream, that
session is stopped and destroyed before the new session is constructed
(before its global sink reference is even taken), and before playback of
the new player begins; on success exactly one session for the stream is
registered. -/
theorem start_replaces_existing (g : GlobalContext) (url : String)
    (hub : Nat) (width height : Int) (mediaOk playOk : Bool)
    (methodId : Option Nat) (newMp : Nat) (old : PlayerContext) (m : Nat)
    (hv : g.vlc ≠ none) (hfind : findPlayer g.players url = some old)
    (hmp : old.mp = some m) :
    precedes (nativeStart g url hub width height mediaOk playOk methodId
        newMp).2.2 (Event.playerStop m) (Event.newGlobalRef hub) ∧
    precedes (nativeStart g url hub width height mediaOk playOk methodId
        newMp).2.2 (Event.freeContext old) (Event.newGlobalRef hub) ∧
    ((nativeStart g url hub width height mediaOk playOk methodId newMp).1 =
        true →
      precedes (nativeStart g url hub width height mediaOk playOk methodId
          newMp).2.2 (Event.playerStop m) (Event.playerPlay newMp) ∧
      countKey (nativeStart g url hub width height mediaOk playOk methodId
          newMp).2.1.players url = 1) := by
  cases mediaOk with
  | false =>
    have ht : nativeStart g url hub width height false playOk methodId
        newMp =
        (false, { g with players := erasePlayer g.players url },
          destroyPlayerContext old ++
            [Event.newGlobalRef hub, Event.mediaNew,
              Event.freeContext ⟨some hub, methodId, none, 0, width, height⟩]) := by
      simp [nativeStart, hv, hfind]
    rw [ht]
    exact ⟨precedes_of_append (playerStop_mem_destroy hmp) (by simp),
      precedes_of_append (freeContext_mem_destroy old) (by simp),
      fun h => by simp at h⟩
  | true =>
    cases playOk with
    | false =>
      have ht : nativeStart g url hub width height true false methodId
          newMp =
          (false, { g with players := erasePlayer g.players url },
            destroyPlayerContext old ++
              (Event.newGlobalRef hub :: Event.mediaNew ::
                Event.playerNew newMp :: Event.mediaRelease ::
                Event.playerPlay newMp ::
                destroyPlayerContext
                  ⟨some hub, methodId, some newMp, 0, width, height⟩)) := by
        simp [nativeStart, hv, hfind]
      rw [ht]
      exact ⟨precedes_of_append (playerStop_mem_destroy hmp) (by simp),
        precedes_of_append (freeContext_mem_destroy old) (by simp),
        fun h => by simp at h⟩
    | true =>
      have ht : nativeStart g url hub width height true true methodId
          newMp =
          (true,
            { g with players := insertPlayer (erasePlayer g.players url) url ⟨some hub, methodId, some newMp, 0, width, height⟩ },
            destroyPlayerContext old ++
              [Event.newGlobalRef hub, Event.mediaNew,
                Event.playerNew newMp, Event.mediaRelease,
                Event.playerPlay newMp]) := by
        simp [nativeStart, hv, hfind]
      rw [ht]
      exact ⟨precedes_of_append (playerStop_mem_destroy hmp) (by simp),
        precedes_of_append (freeContext_mem_destroy old) (by simp),
        fun _ => ⟨precedes_of_append (playerStop_mem_destroy hmp) (by simp),
          countKey_insertPlayer _ _ _⟩⟩

/-- Witness for C2: restarting the single registered stream stops the old
player before the new one plays and leaves exactly one session. -/
theorem start_replaces_existing_witness :
    precedes (nativeStart ⟨some 1, [("u", ⟨some 2, some 3, some 4, 0, 100, 100⟩)]⟩
        "u" 9 200 200 true true (some 3) 5).2.2
      (Event.playerStop 4) (Event.playerPlay 5) ∧
    countKey (nativeStart ⟨some 1, [("u", ⟨some 2, some 3, some 4, 0, 100, 100⟩)]⟩
        "u" 9 200 200 true true (some 3) 5).2.1.players "u" = 1 := by
  have h := start_replaces_existing
    ⟨some 1, [("u", ⟨some 2, some 3, some 4, 0, 100, 100⟩)]⟩ "u" 9 200 200
    true true (some 3) 5 ⟨some 2, some 3, some 4, 0, 100, 100⟩ 4
    (by decide) (by decide) rfl
  exact h.2.2 (by decide)

/-- C3 evidence: on the media-creation-failure path `nativeStart` returns
`false` and registers nothing, but while a global reference to the sink
was taken, no matching delete of that reference is in the trace (only the
bare context delete); on the playback-failure path the same reference is
correctly deleted. -/
theorem start_media_failure_leak :
    (nativeStart ⟨some 7, []⟩ "rtsp://cam" 5 0 0 false true none 9).1 =
        false ∧
      findPlayer (nativeStart ⟨some 7, []⟩ "rtsp://cam" 5 0 0 false true
        none 9).2.1.players "rtsp://cam" = none ∧
      Event.newGlobalRef 5 ∈
        (nativeStart ⟨some 7, []⟩ "rtsp://cam" 5 0 0 false true none 9).2.2 ∧
      Event.deleteGlobalRef 5 ∉
        (nativeStart ⟨some 7, []⟩ "rtsp://cam" 5 0 0 false true none 9).2.2 ∧
      (nativeStart ⟨some 7, []⟩ "rtsp://cam" 5 0 0 true false none 9).1 =
        false ∧
      Event.deleteGlobalRef 5 ∈
        (nativeStart ⟨some 7, []⟩ "rtsp://cam" 5 0 0 true false none 9).2.2 ∧
      findPlayer (nativeStart ⟨some 7, []⟩ "rtsp://cam" 5 0 0 true false
        none 9).2.1.players "rtsp://cam" = none := by
  decide

/-- C4: a failed `nativeStart` (media cannot be created, or playback fails
to begin) on a stream that had an existing session returns `false` and
leaves no session for that stream: the old session was already destroyed
and erased. -/
theorem start_failure_after_replace (g : GlobalContext) (url : String)
    (hub : Nat) (width height : Int) (mediaOk playOk : Bool)
    (methodId : Option Nat) (newMp : Nat) (old : PlayerContext)
    (hv : g.vlc ≠ none) (hfind : findPlayer g.players url = some old)
    (hfail : mediaOk = false ∨ playOk = false) :
    (nativeStart g url hub width height mediaOk playOk methodId newMp).1 =
        false ∧
      findPlayer (nativeStart g url hub width height mediaOk playOk methodId
        newMp).2.1.players url = none ∧
      Event.freeContext old ∈
        (nativeStart g url hub width height mediaOk playOk methodId
          newMp).2.2 := by
  cases mediaOk with
  | false =>
    refine ⟨?_, ?_, ?_⟩ <;>
      simp [nativeStart, hv, hfind, findPlayer_erasePlayer,
        freeContext_mem_destroy]
  | true =>
    cases playOk with
    | false =>
      refine ⟨?_, ?_, ?_⟩ <;>
        simp [nativeStart, hv, hfind, findPlayer_erasePlayer,
          freeContext_mem_destroy]
    | true =>
      rcases hfail with h | h <;> simp at h

/-- Witness for C4: a playback failure on an occupied identifier returns
`false` with the identifier left unregistered. -/
theorem start_failure_after_replace_witness :
    (nativeStart ⟨some 1, [("u", ⟨some 2, some 3, some 4, 0, 0, 0⟩)]⟩ "u" 9
        0 0 true false none 5).1 = false ∧
      findPlayer (nativeStart ⟨some 1, [("u", ⟨some 2, some 3, some 4, 0, 0, 0⟩)]⟩
        "u" 9 0 0 true false none 5).2.1.players "u" = none ∧
      Event.freeContext ⟨some 2, some 3, some 4, 0, 0, 0⟩ ∈
        (nativeStart ⟨some 1, [("u", ⟨some 2, some 3, some 4, 0, 0, 0⟩)]⟩
          "u" 9 0 0 true false none 5).2.2 :=
  start_failure_after_replace
    ⟨some 1, [("u", ⟨some 2, some 3, some 4, 0, 0, 0⟩)]⟩ "u" 9 0 0 true
    false none 5 ⟨some 2, some 3, some 4, 0, 0, 0⟩ (by decide) (by decide)
    (Or.inr rfl)
